import Mathlib

/-!
Verification of the PSP (Phase-Space Protocol) reader `pspio`.

The development shallowly embeds `pspio/io.py`: a PSP file is a list of
bytes (`List Nat`, each entry a byte value), reads that can run past the
end of the file fail with an explicit error, and the loader functions
mirror the Python methods `PSPFile._load_headers`,
`PSPFile._load_component_header`, `PSPFile._load_component_data`,
`PSPFile._load_data` and the lazy properties of the `PSPFile` facade.
Numeric fields are modelled as `Nat` (Python integers are unbounded and
every field read from the file is an unsigned 32-bit or 64-bit word);
the 64-bit `time` field is modelled as its little-endian bit pattern.
-/

set_option autoImplicit false

namespace Pspio

/-- Errors that can abort header loading: a read running past the end of
the file (numpy raises when unpacking a short `fromfile` result, or when
the info string cannot be read), or an info string whose decoded metadata
is unusable (missing `name` or `parameters.indexing`). -/
inductive LoadErr where
  | truncated
  | badMetadata
  deriving DecidableEq, Repr

/-- Errors surfaced by the `PSPFile` facade: the `ValueError` for an
incomplete unit specification, the `IOError` raised by `__init__` that
wraps any header-loading failure, propagation of a raw header failure,
the `ValueError` numpy raises when a memmap extent exceeds the file, and
the `AssertionError` of `_load_data`'s body-count check. -/
inductive PspError where
  | incompleteUnitSpec
  | notAPspFile (cause : LoadErr)
  | headerFailure (cause : LoadErr)
  | outOfRange
  | bodyCountMismatch
  deriving DecidableEq, Repr

/-- Value of a little-endian byte list. -/
def leNat : List Nat → Nat
  | [] => 0
  | b :: bs => b % 256 + 256 * leNat bs

/-- Read `n` bytes at offset `off`; fails if the file is too short. -/
def readBytes (file : List Nat) (off n : Nat) : Except LoadErr (List Nat) :=
  if off + n ≤ file.length then .ok ((file.drop off).take n) else .error .truncated

/-- Read a little-endian unsigned 32-bit integer at offset `off`. -/
def readU32 (file : List Nat) (off : Nat) : Except LoadErr Nat :=
  (readBytes file off 4).map leNat

/-- Read a little-endian 64-bit word at offset `off` (the bit pattern of
the `<f8` typed read of the `time` field). -/
def readU64 (file : List Nat) (off : Nat) : Except LoadErr Nat :=
  (readBytes file off 8).map leNat

/-- Metadata extracted from a component's decoded info string: the
`name` key (as its byte string) and the `parameters.indexing` flag. -/
structure Metadata where
  name : List Nat
  indexing : Bool
  deriving DecidableEq, Repr

/-- Modelled stand-in for the external YAML metadata decoder
(`yaml.safe_load` plus the `head_dict['name']` and
`head_dict['parameters']['indexing']` lookups), which is an off-the-shelf
dependency, not repository code.  The info block is modelled as one
leading byte holding the truthiness of `parameters.indexing` followed by
the bytes of `name`; an empty info block has no usable metadata and
fails, as the real decoder's failures do. -/
def decodeInfo : List Nat → Except LoadErr Metadata
  | [] => .error .badMetadata
  | b :: rest => .ok { name := rest, indexing := b != 0 }

/-- Per-component header, mirroring the dict built by
`PSPFile._load_component_header`: the component's 0-based position, its
metadata, the attribute counts and body count, and the absolute byte
range of its data block. -/
structure CompHeader where
  index : Nat
  name : List Nat
  indexing : Bool
  nint_attr : Nat
  nfloat_attr : Nat
  nbodies : Nat
  data_start : Nat
  data_end : Nat
  deriving DecidableEq, Repr

/-- Size in bytes of one particle record, as computed in
`_load_component_header`: `8 * int(indexing) + float_len * 8 +
4 * nint_attr + float_len * nfloat_attr`. -/
def recordSize (float_len : Nat) (indexing : Bool) (nint_attr nfloat_attr : Nat) : Nat :=
  8 * (if indexing then 1 else 0) + float_len * 8 + 4 * nint_attr + float_len * nfloat_attr

/-- Parse one component header at byte position `pos`, mirroring
`PSPFile._load_component_header`: read six little-endian uint32 words
when `float_len = 4` (the unpacking discards the first two) and four
words otherwise, keeping `nbodies, nint_attr, nfloat_attr,
infostringlen`; read the `infostringlen`-byte info string and decode it;
record the data range starting at the position after the info string and
ending `nbodies * record_size` bytes later. -/
def loadComponentHeader (float_len : Nat) (file : List Nat) (pos comp_idx : Nat) :
    Except LoadErr CompHeader :=
  let count := if float_len = 4 then 6 else 4
  match readBytes file pos (4 * count) with
  | .error e => .error e
  | .ok raw =>
    let f := raw.drop (4 * count - 16)
    let nbodies := leNat (f.take 4)
    let nint_attr := leNat ((f.drop 4).take 4)
    let nfloat_attr := leNat ((f.drop 8).take 4)
    let infostringlen := leNat ((f.drop 12).take 4)
    match readBytes file (pos + 4 * count) infostringlen with
    | .error e => .error e
    | .ok info =>
      match decodeInfo info with
      | .error e => .error e
      | .ok md =>
        let comp_data_pos := pos + 4 * count + infostringlen
        let comp_length := nbodies * recordSize float_len md.indexing nint_attr nfloat_attr
        .ok { index := comp_idx, name := md.name, indexing := md.indexing,
              nint_attr := nint_attr, nfloat_attr := nfloat_attr, nbodies := nbodies,
              data_start := comp_data_pos, data_end := comp_data_pos + comp_length }

/-- Walk `n` component headers starting at byte position `pos`, the loop
of `PSPFile._load_headers`: after each header the cursor is seeked to
that component's `data_end`, where the next header begins. -/
def loadComps (float_len : Nat) (file : List Nat) : Nat → Nat → Nat → Except LoadErr (List CompHeader)
  | 0, _, _ => .ok []
  | n + 1, pos, idx =>
    match loadComponentHeader float_len file pos idx with
    | .error e => .error e
    | .ok h =>
      match loadComps float_len file n h.data_end (idx + 1) with
      | .error e => .error e
      | .ok rest => .ok (h :: rest)

/-- Insertion into a Python dict: an existing key keeps its position and
gets the new value, a new key is appended. -/
def dictInsert (m : List (List Nat × CompHeader)) (k : List Nat) (v : CompHeader) :
    List (List Nat × CompHeader) :=
  if m.any (fun p => p.1 == k) then
    m.map (fun p => if p.1 == k then (k, v) else p)
  else m ++ [(k, v)]

/-- The `comp_header` dict of `_load_headers`: each parsed component is
stored under its popped `name` key, later components overwriting earlier
ones with the same name. -/
def buildMap (comps : List CompHeader) : List (List Nat × CompHeader) :=
  comps.foldl (fun m c => dictInsert m c.name c) []

/-- Result of `PSPFile._load_headers`: the float width decided by the
magic word, the raw `time` bits, the master header's `total_bodies` and
component count, the components in on-disk order, the name-keyed header
dict, and the accumulated `nbodies` sum. -/
structure HeadersResult where
  float_len : Nat
  time_bits : Nat
  nbodies_tot : Nat
  ncomp : Nat
  comps : List CompHeader
  comp_header : List (List Nat × CompHeader)
  nbodies : Nat
  deriving DecidableEq, Repr

/-- The magic sentinel distinguishing single-precision files. -/
def pspMagic : Nat := 2915019716

/-- Parse the master header and all component headers, mirroring
`PSPFile._load_headers`: probe the uint32 magic at offset 16 (float
width 4 iff it equals the sentinel, 8 otherwise), then from offset 0
read the 64-bit `time`, and the uint32 `total_bodies` and component
count, then walk the component headers starting at offset 16. -/
def loadHeaders (file : List Nat) : Except LoadErr HeadersResult :=
  match readU32 file 16 with
  | .error e => .error e
  | .ok cmagic =>
    let float_len := if cmagic = pspMagic then 4 else 8
    match readU64 file 0 with
    | .error e => .error e
    | .ok time_bits =>
      match readU32 file 8 with
      | .error e => .error e
      | .ok nbodies_tot =>
        match readU32 file 12 with
        | .error e => .error e
        | .ok ncomp =>
          match loadComps float_len file ncomp 16 0 with
          | .error e => .error e
          | .ok comps =>
            .ok { float_len := float_len, time_bits := time_bits,
                  nbodies_tot := nbodies_tot, ncomp := ncomp, comps := comps,
                  comp_header := buildMap comps,
                  nbodies := (comps.map CompHeader.nbodies).sum }

/-- A materialized component table: the named columns, in order, each
column the list of its values (raw little-endian words). -/
abbrev Table := List (String × List Nat)

/-- The loaded data mapping, name-keyed like the `comp_data` dict. -/
abbrev Tables := List (List Nat × Table)

/-- The numpy dtype character for floats, `PSPFile._float_str`. -/
def float_str (float_len : Nat) : String := if float_len = 4 then "f" else "d"

/-- The list of per-column dtype characters built by
`_load_component_data`: an optional leading long for the index column,
eight floats, `nint_attr` int32 columns and `nfloat_attr` floats. -/
def dtypeStr (float_len : Nat) (h : CompHeader) : List String :=
  (if h.indexing then ["l"] else []) ++
  List.replicate 8 (float_str float_len) ++
  List.replicate h.nint_attr "i" ++
  List.replicate h.nfloat_attr (float_str float_len)

/-- The ordered column names built by `_load_component_data`. -/
def colnames (h : CompHeader) : List String :=
  (if h.indexing then ["index"] else []) ++
  ["m", "x", "y", "z", "vx", "vy", "vz", "potE"] ++
  (List.range h.nint_attr).map (fun i => "i_attr" ++ toString i) ++
  (List.range h.nfloat_attr).map (fun i => "f_attr" ++ toString i)

/-- Byte width of a numpy dtype character as used here: long `l` is 8,
double `d` is 8, int `i` is 4, float `f` is 4. -/
def typeWidth (c : String) : Nat :=
  if c = "l" then 8 else if c = "d" then 8 else if c = "i" then 4 else
    if c = "f" then 4 else 0

/-- The per-column byte widths of a component's packed record. -/
def widths (float_len : Nat) (h : CompHeader) : List Nat :=
  (dtypeStr float_len h).map typeWidth

/-- Itemsize of the packed record dtype: the sum of the field widths. -/
def itemsize (float_len : Nat) (h : CompHeader) : Nat := (widths float_len h).sum

/-- Byte offset of field `k` within a record: the sum of the widths of
the preceding fields. -/
def fieldOffset (ws : List Nat) (k : Nat) : Nat := (ws.take k).sum

/-- The bytes of field `k` of record `j`: record `j` is the `isz`-byte
slice at `start + j * isz`, and the field is the slice of it at the
field's offset, of the field's width. -/
def fieldBytes (file : List Nat) (start isz : Nat) (ws : List Nat) (k j : Nat) : List Nat :=
  ((((file.drop (start + j * isz)).take isz).drop (fieldOffset ws k)).take (ws.getD k 0))

/-- Materialize one component's table, mirroring
`PSPFile._load_component_data`: build the record dtype and column names,
memory-map `nbodies` records at `data_start` (numpy raises when the
requested extent runs past the end of the file - modelled as the
`outOfRange` error), and copy each column out of the mapped records. -/
def loadComponentData (float_len : Nat) (file : List Nat) (h : CompHeader) :
    Except PspError Table :=
  let ws := widths float_len h
  let isz := ws.sum
  if h.data_start + h.nbodies * isz ≤ file.length then
    .ok ((colnames h).enum.map (fun p =>
      (p.2, (List.range h.nbodies).map (fun j => leNat (fieldBytes file h.data_start isz ws p.1 j)))))
  else .error .outOfRange

/-- Number of rows of a table (`len` of an astropy table: the common
column length). -/
def tableLen (tbl : Table) : Nat :=
  match tbl with
  | [] => 0
  | c :: _ => c.2.length

/-- Load the data of every entry of the name-keyed header dict, in
order - the loop body of `PSPFile._load_data`. -/
def loadDataComps (float_len : Nat) (file : List Nat) :
    List (List Nat × CompHeader) → Except PspError Tables
  | [] => .ok []
  | (name, h) :: rest =>
    match loadComponentData float_len file h with
    | .error e => .error e
    | .ok tbl =>
      match loadDataComps float_len file rest with
      | .error e => .error e
      | .ok more => .ok ((name, tbl) :: more)

/-- The whole of `PSPFile._load_data`: load every component's table,
then run the `assert self.nbodies == ndatabodies` check comparing the
accumulated header body count with the number of loaded rows. -/
def loadData (file : List Nat) (r : HeadersResult) : Except PspError Tables :=
  match loadDataComps r.float_len file r.comp_header with
  | .error e => .error e
  | .ok comp_data =>
    let ndatabodies := (comp_data.map (fun p => tableLen p.2)).sum
    if r.nbodies = ndatabodies then .ok comp_data else .error .bodyCountMismatch

/-- The mutable state of a `PSPFile` instance: the unit options given at
construction and the two lazy slots `_comp_headers` and `_comp_data`
(`none` is the unloaded state). -/
structure PSPState where
  pos_unit : Option Nat
  vel_unit : Option Nat
  comp_headers : Option HeadersResult
  comp_data : Option Tables
  deriving DecidableEq, Repr

/-- Construction of a `PSPFile`, mirroring `PSPFile.__init__`: first the
unit-pair check (before any file access), then the first access to the
`headers` property, whose failure for any reason is wrapped into the
single `IOError` asking whether this is a PSP file at all. -/
def PSPFile.init (file : List Nat) (pos_unit vel_unit : Option Nat) :
    Except PspError PSPState :=
  if (pos_unit.isNone && vel_unit.isSome) || (vel_unit.isNone && pos_unit.isSome) then
    .error .incompleteUnitSpec
  else
    match loadHeaders file with
    | .error e => .error (.notAPspFile e)
    | .ok r => .ok { pos_unit := pos_unit, vel_unit := vel_unit,
                     comp_headers := some r, comp_data := none }

/-- The `headers` property: return the memoized value when the slot is
loaded, otherwise load from the file and fill the slot.  The returned
`Nat` counts the file-opening reads this access performed. -/
def getHeaders (file : List Nat) (s : PSPState) :
    Except PspError (HeadersResult × PSPState × Nat) :=
  match s.comp_headers with
  | some r => .ok (r, s, 0)
  | none =>
    match loadHeaders file with
    | .error e => .error (.headerFailure e)
    | .ok r => .ok (r, { s with comp_headers := some r }, 1)

/-- The `data` property: return the memoized value when the slot is
loaded, otherwise run `_load_data` (which itself goes through the
`headers` property) and fill the slot. -/
def getData (file : List Nat) (s : PSPState) :
    Except PspError (Tables × PSPState × Nat) :=
  match s.comp_data with
  | some d => .ok (d, s, 0)
  | none =>
    match getHeaders file s with
    | .error e => .error e
    | .ok (r, s1, k) =>
      match loadData file r with
      | .error e => .error e
      | .ok d => .ok (d, { s1 with comp_data := some d }, k + 1)

/-- Construct a `PSPFile` with no units and access its data: the full
load pipeline. -/
def openAndLoad (file : List Nat) :
    Except PspError (PSPState × HeadersResult × Tables) :=
  match PSPFile.init file none none with
  | .error e => .error e
  | .ok s =>
    match getHeaders file s with
    | .error e => .error e
    | .ok (r, s1, _) =>
      match getData file s1 with
      | .error e => .error e
      | .ok (d, s2, _) => .ok (s2, r, d)

/-- Whether an `Except` value is a success. -/
def isOkE {ε α : Type} : Except ε α → Bool
  | .ok _ => true
  | .error _ => false

/-- Little-endian encoding of a uint32 value, for building example
files. -/
def u32 (n : Nat) : List Nat :=
  [n % 256, n / 256 % 256, n / 65536 % 256, n / 16777216 % 256]

/-- Example file: double precision, master header claims `total_bodies
= 2`, one component named `A` with 3 bodies, no attribute columns, no
index column; the component body-count sum (3) differs from
`total_bodies` (2). -/
def exFileMismatch : List Nat :=
  List.replicate 8 0 ++ u32 2 ++ u32 1 ++
  u32 3 ++ u32 0 ++ u32 0 ++ u32 2 ++ [0, 65] ++ List.replicate 192 0

/-- The parsed component header of `exFileMismatch`. -/
def exHdrMm : CompHeader :=
  { index := 0, name := [65], indexing := false, nint_attr := 0,
    nfloat_attr := 0, nbodies := 3, data_start := 34, data_end := 226 }

/-- The parsed headers of `exFileMismatch`. -/
def exHdrsMm : HeadersResult :=
  { float_len := 8, time_bits := 0, nbodies_tot := 2, ncomp := 1,
    comps := [exHdrMm], comp_header := [([65], exHdrMm)], nbodies := 3 }

/-- Example file: double precision, two components both named `A`, with
1 and 2 bodies, `total_bodies = 3`. -/
def exFileDup : List Nat :=
  List.replicate 8 0 ++ u32 3 ++ u32 2 ++
  u32 1 ++ u32 0 ++ u32 0 ++ u32 2 ++ [0, 65] ++ List.replicate 64 0 ++
  u32 2 ++ u32 0 ++ u32 0 ++ u32 2 ++ [0, 65] ++ List.replicate 128 0

/-- The first parsed component header of `exFileDup`. -/
def exHdr0 : CompHeader :=
  { index := 0, name := [65], indexing := false, nint_attr := 0,
    nfloat_attr := 0, nbodies := 1, data_start := 34, data_end := 98 }

/-- The second parsed component header of `exFileDup`. -/
def exHdr1 : CompHeader :=
  { index := 1, name := [65], indexing := false, nint_attr := 0,
    nfloat_attr := 0, nbodies := 2, data_start := 116, data_end := 244 }

/-- The parsed headers of `exFileDup`: the dict keeps only the second
component under the duplicated name, `nbodies` counts both. -/
def exHdrsDup : HeadersResult :=
  { float_len := 8, time_bits := 0, nbodies_tot := 3, ncomp := 2,
    comps := [exHdr0, exHdr1], comp_header := [([65], exHdr1)], nbodies := 3 }

/-- Example file: single precision (the magic sentinel at offset 16 is
also the first, discarded, word of component 0's header), one component
named `C` with one body and no attribute columns. -/
def exFileFloat : List Nat :=
  List.replicate 8 0 ++ u32 1 ++ u32 1 ++
  u32 2915019716 ++ u32 0 ++ u32 1 ++ u32 0 ++ u32 0 ++ u32 2 ++ [0, 67] ++
  List.replicate 32 7

/-- The parsed component header of `exFileFloat`. -/
def exHdrF : CompHeader :=
  { index := 0, name := [67], indexing := false, nint_attr := 0,
    nfloat_attr := 0, nbodies := 1, data_start := 42, data_end := 74 }

/-- The parsed headers of `exFileFloat`. -/
def exHdrsF : HeadersResult :=
  { float_len := 4, time_bits := 0, nbodies_tot := 1, ncomp := 1,
    comps := [exHdrF], comp_header := [([67], exHdrF)], nbodies := 1 }

/-- Example file: double precision, one component named `B` with 2
bodies, an index column, one integer attribute and two float
attributes; every data byte is 5. -/
def exFileGood : List Nat :=
  List.replicate 8 0 ++ u32 2 ++ u32 1 ++
  u32 2 ++ u32 1 ++ u32 2 ++ u32 2 ++ [1, 66] ++ List.replicate 184 5

/-- The parsed component header of `exFileGood`. -/
def exHdrG : CompHeader :=
  { index := 0, name := [66], indexing := true, nint_attr := 1,
    nfloat_attr := 2, nbodies := 2, data_start := 34, data_end := 218 }

/-- Bytes skipped before the four taken header words: the two discarded
uint32 words of a single-precision component header. -/
def headerPad (float_len : Nat) : Nat := if float_len = 4 then 8 else 0

/-- The info-string length of the component header at `pos`: the fourth
of the taken header words. -/
def infoLenAt (float_len : Nat) (file : List Nat) (pos : Nat) : Nat :=
  leNat ((file.drop (pos + headerPad float_len + 12)).take 4)

/-- Value of eight bytes 5 read little-endian. -/
def v8 : Nat := 361700864190383365

/-- Value of four bytes 5 read little-endian. -/
def v4 : Nat := 84215045

/-- The table materialized for `exHdrG` from `exFileGood`. -/
def exTblG : Table :=
  [("index", [v8, v8]), ("m", [v8, v8]), ("x", [v8, v8]), ("y", [v8, v8]),
   ("z", [v8, v8]), ("vx", [v8, v8]), ("vy", [v8, v8]), ("vz", [v8, v8]),
   ("potE", [v8, v8]), ("i_attr0", [v4, v4]), ("f_attr0", [v8, v8]),
   ("f_attr1", [v8, v8])]

/-- Example file: like `exFileMismatch` but holding only 50 of the 192
declared data bytes; 84 bytes long in total. -/
def exFileShort : List Nat :=
  List.replicate 8 0 ++ u32 3 ++ u32 1 ++
  u32 3 ++ u32 0 ++ u32 0 ++ u32 2 ++ [0, 65] ++ List.replicate 50 0

/-- The data tables loaded from `exFileMismatch`. -/
def exTblMm : Tables :=
  [([65], [("m", [0, 0, 0]), ("x", [0, 0, 0]), ("y", [0, 0, 0]), ("z", [0, 0, 0]),
    ("vx", [0, 0, 0]), ("vy", [0, 0, 0]), ("vz", [0, 0, 0]), ("potE", [0, 0, 0])])]

/-- The data tables loaded from `exFileDup`'s deduplicated header
dict. -/
def exTblDup : Tables :=
  [([65], [("m", [0, 0]), ("x", [0, 0]), ("y", [0, 0]), ("z", [0, 0]),
    ("vx", [0, 0]), ("vy", [0, 0]), ("vz", [0, 0]), ("potE", [0, 0])])]

/-- A fully loaded facade state, as produced by the pipeline over
`exFileMismatch`. -/
def exState : PSPState :=
  { pos_unit := none, vel_unit := none, comp_headers := some exHdrsMm,
    comp_data := some exTblMm }

theorem readBytes_ok_iff {file : List Nat} {off n : Nat} {bs : List Nat} :
    readBytes file off n = .ok bs ↔ off + n ≤ file.length ∧ bs = (file.drop off).take n := by
  unfold readBytes
  split
  · constructor
    · intro hp
      injection hp with hp
      exact ⟨by assumption, hp.symm⟩
    · rintro ⟨-, rfl⟩
      rfl
  · constructor
    · intro hp
      injection hp
    · rintro ⟨hle, -⟩
      exact absurd hle (by assumption)

theorem readBytes_ok_of_le {file : List Nat} {off n : Nat} (h : off + n ≤ file.length) :
    readBytes file off n = .ok ((file.drop off).take n) :=
  readBytes_ok_iff.mpr ⟨h, rfl⟩

theorem readU32_eval {file : List Nat} {off : Nat} (h : off + 4 ≤ file.length) :
    readU32 file off = .ok (leNat ((file.drop off).take 4)) := by
  unfold readU32
  rw [readBytes_ok_of_le h]
  rfl

theorem take_drop_take {α : Type} (l : List α) (a b c d : Nat) (h : c + d ≤ b) :
    (((l.drop a).take b).drop c).take d = (l.drop (a + c)).take d := by
  rw [List.drop_take, List.drop_drop, List.take_take]
  congr 1
  omega

/-- C2: for every component, the header parse at the current cursor
reads 6 little-endian uint32 values when `float_len` is 4 (discarding
the first two) and exactly 4 when it is 8 - the four taken words,
located `headerPad float_len` bytes past the cursor, are `nbodies,
nint_attr, nfloat_attr, infostringlen`; the parse then reads the
`infostringlen` metadata bytes, records `data_start` right after them,
sets `data_end = data_start + nbodies * record_size`, and the walker
continues the next component's header at `data_end`. -/
theorem c2_component_header_parse (float_len : Nat) (file : List Nat) (pos idx : Nat)
    (h : CompHeader) (hfl : float_len = 4 ∨ float_len = 8)
    (hp : loadComponentHeader float_len file pos idx = .ok h) :
    readU32 file (pos + headerPad float_len) = .ok h.nbodies ∧
    readU32 file (pos + headerPad float_len + 4) = .ok h.nint_attr ∧
    readU32 file (pos + headerPad float_len + 8) = .ok h.nfloat_attr ∧
    readU32 file (pos + headerPad float_len + 12) = .ok (infoLenAt float_len file pos) ∧
    isOkE (readBytes file (pos + headerPad float_len + 16) (infoLenAt float_len file pos)) = true ∧
    h.data_start = pos + headerPad float_len + 16 + infoLenAt float_len file pos ∧
    h.data_end = h.data_start +
      h.nbodies * recordSize float_len h.indexing h.nint_attr h.nfloat_attr ∧
    (∀ n rest, loadComps float_len file (n + 1) pos idx = .ok (h :: rest) →
      loadComps float_len file n h.data_end (idx + 1) = .ok rest) := by
  have hp0 := hp
  have hpad : 4 * (if float_len = 4 then 6 else 4) = headerPad float_len + 16 := by
    rcases hfl with rfl | rfl <;> rfl
  simp only [loadComponentHeader] at hp
  rw [hpad, Nat.add_sub_cancel] at hp
  split at hp
  · injection hp
  · rename_i raw hraw
    rw [readBytes_ok_iff] at hraw
    obtain ⟨hlen, rfl⟩ := hraw
    simp only [List.drop_drop] at hp
    rw [take_drop_take file pos (headerPad float_len + 16) (headerPad float_len) 4 (by omega),
        take_drop_take file pos (headerPad float_len + 16) (headerPad float_len + 4) 4 (by omega),
        take_drop_take file pos (headerPad float_len + 16) (headerPad float_len + 8) 4 (by omega),
        take_drop_take file pos (headerPad float_len + 16) (headerPad float_len + 12) 4 (by omega)]
      at hp
    simp only [← Nat.add_assoc] at hp
    split at hp
    · injection hp
    · rename_i info hinfo
      split at hp
      · injection hp
      · rename_i md hmd
        injection hp with hp
        subst hp
        refine ⟨readU32_eval (by omega), readU32_eval (by omega), readU32_eval (by omega),
          readU32_eval (by omega), ?_, ?_, ?_, ?_⟩
        · simp only [infoLenAt]
          rw [hinfo]
          rfl
        · simp only [infoLenAt]
        · rfl
        · intro n rest hseq
          simp only [loadComps] at hseq
          split at hseq
          · injection hseq
          · rename_i h' hh'
            rw [hp0] at hh'
            injection hh' with hh'
            subst hh'
            split at hseq
            · injection hseq
            · rename_i rest0 hrest
              injection hseq with hseq
              injection hseq with e1 e2
              subst e2
              exact hrest

set_option maxRecDepth 100000 in
/-- Witness for C2: the first component of `exFileDup` parses to
`exHdr0`, its four header words sit right at the cursor
(double-precision file), and the walker parses the second component at
`exHdr0.data_end`. -/
theorem c2_witness :
    loadComponentHeader 8 exFileDup 16 0 = .ok exHdr0 ∧
    readU32 exFileDup (16 + headerPad 8) = .ok exHdr0.nbodies ∧
    readU32 exFileDup (16 + headerPad 8 + 4) = .ok exHdr0.nint_attr ∧
    exHdr0.data_start = 16 + headerPad 8 + 16 + infoLenAt 8 exFileDup 16 ∧
    exHdr0.data_end = exHdr0.data_start +
      exHdr0.nbodies * recordSize 8 exHdr0.indexing exHdr0.nint_attr exHdr0.nfloat_attr ∧
    loadComps 8 exFileDup 1 exHdr0.data_end 1 = .ok [exHdr1] := by
  have h := c2_component_header_parse 8 exFileDup 16 0 exHdr0 (Or.inr rfl) rfl
  exact ⟨rfl, h.1, h.2.1, h.2.2.2.2.2.1, h.2.2.2.2.2.2.1, h.2.2.2.2.2.2.2 1 [exHdr1] rfl⟩

theorem loadHeaders_inv (file : List Nat) (r : HeadersResult)
    (hr : loadHeaders file = .ok r) :
    ∃ m, readU32 file 16 = .ok m ∧
      r.float_len = (if m = pspMagic then 4 else 8) ∧
      readU64 file 0 = .ok r.time_bits ∧
      readU32 file 8 = .ok r.nbodies_tot ∧
      readU32 file 12 = .ok r.ncomp ∧
      loadComps r.float_len file r.ncomp 16 0 = .ok r.comps ∧
      r.comp_header = buildMap r.comps ∧
      r.nbodies = (r.comps.map CompHeader.nbodies).sum := by
  simp only [loadHeaders] at hr
  split at hr
  · injection hr
  · rename_i m h16
    split at hr
    · injection hr
    · rename_i tb h0
      split at hr
      · injection hr
      · rename_i nt h8
        split at hr
        · injection hr
        · rename_i nc h12
          split at hr
          · injection hr
          · rename_i comps hcomps
            injection hr with hr
            subst hr
            exact ⟨m, h16, rfl, h0, h8, h12, hcomps, rfl, rfl⟩

/-- C3: the master header parse probes the little-endian uint32 magic at
byte offset 16; the float width is 4 iff the magic equals 2915019716 and
8 for every other uint32 value; `time` is then read from offset 0 as a
little-endian 64-bit word (the bit pattern of the IEEE double), followed
by the uint32 `total_bodies` at offset 8 and `component_count` at
offset 12. -/
theorem c3_master_header_parse (file : List Nat) (r : HeadersResult)
    (hr : loadHeaders file = .ok r) :
    (readU32 file 16 = .ok 2915019716 → r.float_len = 4) ∧
    (∀ m, readU32 file 16 = .ok m → m ≠ 2915019716 → r.float_len = 8) ∧
    (r.float_len = 4 ∨ r.float_len = 8) ∧
    readU64 file 0 = .ok r.time_bits ∧
    readU32 file 8 = .ok r.nbodies_tot ∧
    readU32 file 12 = .ok r.ncomp := by
  obtain ⟨m, h16, hfl, h0, h8, h12, -, -, -⟩ := loadHeaders_inv file r hr
  simp only [pspMagic] at hfl
  refine ⟨?_, ?_, ?_, h0, h8, h12⟩
  · intro hm
    rw [h16] at hm
    injection hm with hm
    rw [hfl, if_pos hm]
  · intro m2 hm2 hne
    rw [h16] at hm2
    injection hm2 with hm2
    subst hm2
    rw [hfl, if_neg hne]
  · rw [hfl]
    split
    · exact Or.inl rfl
    · exact Or.inr rfl

set_option maxRecDepth 100000 in
/-- Witness for C3: `exFileFloat` carries the magic sentinel at offset
16 and parses single-precision; `exFileDup` has magic word 1 there and
parses double-precision; `time`, `total_bodies` and `component_count`
are read at offsets 0, 8 and 12. -/
theorem c3_witness :
    loadHeaders exFileFloat = .ok exHdrsF ∧ exHdrsF.float_len = 4 ∧
    loadHeaders exFileDup = .ok exHdrsDup ∧ exHdrsDup.float_len = 8 ∧
    readU64 exFileFloat 0 = .ok exHdrsF.time_bits ∧
    readU32 exFileFloat 8 = .ok exHdrsF.nbodies_tot ∧
    readU32 exFileFloat 12 = .ok exHdrsF.ncomp := by
  have hf := c3_master_header_parse exFileFloat exHdrsF rfl
  have hd := c3_master_header_parse exFileDup exHdrsDup rfl
  exact ⟨rfl, hf.1 rfl, rfl, hd.2.1 1 rfl (by decide),
    hf.2.2.2.1, hf.2.2.2.2.1, hf.2.2.2.2.2⟩

theorem lookup_map_update (m : List (List Nat × CompHeader)) (k : List Nat) (v : CompHeader)
    (hmem : m.any (fun p => p.1 == k) = true) :
    List.lookup k (m.map (fun p => if p.1 == k then (k, v) else p)) = some v := by
  induction m with
  | nil => simp at hmem
  | cons p t ih =>
    simp only [List.any_cons, Bool.or_eq_true] at hmem
    by_cases hpk : p.1 = k
    · subst hpk
      rw [List.map_cons, if_pos (beq_self_eq_true p.1), List.lookup_cons,
        beq_self_eq_true p.1]
    · have hf : (p.1 == k) = false := beq_eq_false_iff_ne.mpr hpk
      have hf2 : (k == p.1) = false := beq_eq_false_iff_ne.mpr (Ne.symm hpk)
      rcases hmem with hm | hm
      · rw [hf] at hm
        cases hm
      · rw [List.map_cons, if_neg (by simp [hf])]
        cases p with
        | mk p1 p2 =>
          rw [List.lookup_cons]
          simp only at hf2
          rw [hf2]
          exact ih hm

theorem lookup_append_single (m : List (List Nat × CompHeader)) (k : List Nat) (v : CompHeader)
    (hmem : m.any (fun p => p.1 == k) = false) :
    List.lookup k (m ++ [(k, v)]) = some v := by
  induction m with
  | nil => rw [List.nil_append, List.lookup_cons, beq_self_eq_true k]
  | cons p t ih =>
    simp only [List.any_cons, Bool.or_eq_false_iff] at hmem
    have hf2 : (k == p.1) = false :=
      beq_eq_false_iff_ne.mpr (Ne.symm (beq_eq_false_iff_ne.mp hmem.1))
    cases p with
    | mk p1 p2 =>
      rw [List.cons_append, List.lookup_cons]
      simp only at hf2
      rw [hf2]
      exact ih hmem.2

theorem lookup_dictInsert_self (m : List (List Nat × CompHeader)) (k : List Nat)
    (v : CompHeader) :
    List.lookup k (dictInsert m k v) = some v := by
  unfold dictInsert
  split
  · exact lookup_map_update m k v (by assumption)
  · rename_i hmem
    simp only [Bool.not_eq_true] at hmem
    exact lookup_append_single m k v hmem

theorem lookup_map_update_ne (m : List (List Nat × CompHeader)) (k k2 : List Nat)
    (v : CompHeader) (hne : k2 ≠ k) :
    List.lookup k2 (m.map (fun p => if p.1 == k then (k, v) else p)) = List.lookup k2 m := by
  induction m with
  | nil => simp
  | cons p t ih =>
    cases p with
    | mk p1 p2 =>
      by_cases hpk : p1 = k
      · subst hpk
        have hne2 : (k2 == p1) = false := beq_eq_false_iff_ne.mpr hne
        rw [List.map_cons, if_pos (beq_self_eq_true (p1, p2).1), List.lookup_cons,
          List.lookup_cons]
        simp only at hne2
        rw [hne2]
        exact ih
      · have hf : (p1 == k) = false := beq_eq_false_iff_ne.mpr hpk
        rw [List.map_cons, if_neg (by simp only; rw [hf]; exact fun h => nomatch h),
          List.lookup_cons, List.lookup_cons]
        cases hkp : (k2 == p1)
        · exact ih
        · rfl

theorem lookup_append_ne (m : List (List Nat × CompHeader)) (k k2 : List Nat)
    (v : CompHeader) (hne : k2 ≠ k) :
    List.lookup k2 (m ++ [(k, v)]) = List.lookup k2 m := by
  induction m with
  | nil =>
    rw [List.nil_append, List.lookup_cons, beq_eq_false_iff_ne.mpr hne]
  | cons p t ih =>
    cases p with
    | mk p1 p2 =>
      rw [List.cons_append, List.lookup_cons, List.lookup_cons]
      cases hkp : (k2 == p1)
      · exact ih
      · rfl

theorem lookup_dictInsert_ne (m : List (List Nat × CompHeader)) (k k2 : List Nat)
    (v : CompHeader) (hne : k2 ≠ k) :
    List.lookup k2 (dictInsert m k v) = List.lookup k2 m := by
  unfold dictInsert
  split
  · exact lookup_map_update_ne m k k2 v hne
  · exact lookup_append_ne m k k2 v hne

theorem getLast?_cons_eq {α : Type} (c : α) (l : List α) :
    (c :: l).getLast? = some (l.getLast?.getD c) := by
  induction l generalizing c with
  | nil => rfl
  | cons x t ih =>
    rw [List.getLast?_cons_cons, ih x]
    rfl

theorem lookup_fold (comps : List CompHeader) (m : List (List Nat × CompHeader))
    (k : List Nat) :
    List.lookup k (comps.foldl (fun acc c => dictInsert acc c.name c) m) =
      match (comps.filter (fun c => c.name == k)).getLast? with
      | some c => some c
      | none => List.lookup k m := by
  induction comps generalizing m with
  | nil => rfl
  | cons c t ih =>
    rw [List.foldl_cons, ih (dictInsert m c.name c), List.filter_cons]
    by_cases hck : c.name = k
    · rw [if_pos (by simp [hck]), getLast?_cons_eq]
      cases hlast : (t.filter (fun c => c.name == k)).getLast? with
      | some c2 => rfl
      | none =>
        simp only [Option.getD_none]
        subst hck
        exact lookup_dictInsert_self m c.name c
    · rw [if_neg (by simp [hck])]
      cases hlast : (t.filter (fun c => c.name == k)).getLast? with
      | some c2 => rfl
      | none => exact lookup_dictInsert_ne m c.name k c (Ne.symm hck)

/-- C10: when a file contains two or more components with the same
metadata name, the headers dict retains only the last such component's
header (later entries overwrite earlier ones in traversal order), while
the accumulated body count still sums the `nbodies` of every on-disk
component, the overwritten ones included. -/
theorem c10_duplicate_names (file : List Nat) (r : HeadersResult) (name : List Nat)
    (hr : loadHeaders file = .ok r) :
    List.lookup name r.comp_header =
      (r.comps.filter (fun c => c.name == name)).getLast? ∧
    r.nbodies = (r.comps.map CompHeader.nbodies).sum := by
  obtain ⟨-, -, -, -, -, -, -, hmap, hsum⟩ := loadHeaders_inv file r hr
  refine ⟨?_, hsum⟩
  rw [hmap]
  unfold buildMap
  rw [lookup_fold]
  cases hlast : (r.comps.filter (fun c => c.name == name)).getLast? <;> rfl

set_option maxRecDepth 100000 in
/-- Witness for C10: `exFileDup` holds two components both named `A`
with 1 and 2 bodies; the dict lookup returns the second one's header and
the accumulated body count is 3. -/
theorem c10_witness :
    loadHeaders exFileDup = .ok exHdrsDup ∧
    List.lookup [65] exHdrsDup.comp_header = some exHdr1 ∧
    exHdrsDup.comps = [exHdr0, exHdr1] ∧
    exHdrsDup.nbodies = 3 := by
  have h := c10_duplicate_names exFileDup exHdrsDup [65] rfl
  exact ⟨rfl, h.1.trans (by rfl), rfl, h.2.trans (by rfl)⟩

theorem fieldOffset_add_getD_le (ws : List Nat) (k : Nat) :
    fieldOffset ws k + ws.getD k 0 ≤ ws.sum := by
  induction ws generalizing k with
  | nil => simp [fieldOffset]
  | cons w t ih =>
    cases k with
    | zero =>
      simp only [fieldOffset, List.take_zero, List.sum_nil, List.getD_cons_zero,
        List.sum_cons, Nat.zero_add]
      omega
    | succ k =>
      have hk := ih k
      simp only [fieldOffset, List.take_succ_cons, List.sum_cons, List.getD_cons_succ] at *
      omega

theorem widths_length (float_len : Nat) (h : CompHeader) :
    (widths float_len h).length = (colnames h).length := by
  unfold widths dtypeStr colnames
  by_cases hi : h.indexing = true <;> simp [hi]

theorem loadComponentData_ok (float_len : Nat) (file : List Nat) (h : CompHeader)
    (tbl : Table) (ht : loadComponentData float_len file h = .ok tbl) :
    h.data_start + h.nbodies * (widths float_len h).sum ≤ file.length ∧
    tbl = (colnames h).enum.map (fun p =>
      (p.2, (List.range h.nbodies).map (fun j =>
        leNat (fieldBytes file h.data_start ((widths float_len h).sum)
          (widths float_len h) p.1 j)))) := by
  simp only [loadComponentData] at ht
  split at ht
  · rename_i hc
    injection ht with ht
    exact ⟨hc, ht.symm⟩
  · injection ht

/-- C4: for every component, the materialized table has exactly the
ordered column set of `colnames` - an `index` column present iff the
metadata's `indexing` flag is set, then `m, x, y, z, vx, vy, vz, potE`,
then the `i_attr` and `f_attr` columns - with the dtype characters of
`dtypeStr` (long, `float_len`-floats, int32, `float_len`-floats); every
column has length `nbodies`, and entry `j` of column `k` is extracted
from the bytes at `data_start + j * record_stride + field_offset k`, of
the field's width. -/
theorem c4_column_layout (float_len : Nat) (file : List Nat) (h : CompHeader) (tbl : Table)
    (ht : loadComponentData float_len file h = .ok tbl) :
    tbl.map Prod.fst = colnames h ∧
    colnames h =
      (if h.indexing then ["index"] else []) ++
        ["m", "x", "y", "z", "vx", "vy", "vz", "potE"] ++
        (List.range h.nint_attr).map (fun i => "i_attr" ++ toString i) ++
        (List.range h.nfloat_attr).map (fun i => "f_attr" ++ toString i) ∧
    dtypeStr float_len h =
      (if h.indexing then ["l"] else []) ++
        List.replicate 8 (float_str float_len) ++
        List.replicate h.nint_attr "i" ++
        List.replicate h.nfloat_attr (float_str float_len) ∧
    (∀ c ∈ tbl, c.2.length = h.nbodies) ∧
    (∀ k j, j < h.nbodies →
      (tbl.getD k ("", [])).2.getD j 0 =
        leNat ((file.drop (h.data_start + j * itemsize float_len h +
          fieldOffset (widths float_len h) k)).take ((widths float_len h).getD k 0))) := by
  obtain ⟨hc, rfl⟩ := loadComponentData_ok float_len file h tbl ht
  refine ⟨?_, rfl, rfl, ?_, ?_⟩
  · rw [List.map_map]
    exact List.enum_map_snd (colnames h)
  · intro c hcc
    rw [List.mem_map] at hcc
    obtain ⟨p, -, rfl⟩ := hcc
    simp
  · intro k j hj
    by_cases hk : k < (colnames h).length
    · simp only [List.getD_eq_getElem?_getD, List.getElem?_map, List.getElem?_enum,
        List.getElem?_eq_getElem hk, Option.map_some', Option.map_map, Function.comp,
        Option.getD_some, List.getElem?_range hj]
      unfold fieldBytes
      rw [take_drop_take _ _ _ _ _ (fieldOffset_add_getD_le (widths float_len h) k)]
      simp only [List.getD_eq_getElem?_getD, itemsize]
    · have hk2 := Nat.le_of_not_lt hk
      have h1 : ((colnames h).enum.map (fun p =>
          (p.2, (List.range h.nbodies).map (fun j =>
            leNat (fieldBytes file h.data_start ((widths float_len h).sum)
              (widths float_len h) p.1 j))))).getD k ("", []) = ("", []) := by
        apply List.getD_eq_default
        simpa using hk2
      rw [h1, List.getD_eq_default (widths float_len h) 0
        (show (widths float_len h).length ≤ k by rw [widths_length]; exact hk2)]
      rfl

set_option maxRecDepth 1000000 in
/-- Witness for C4: the component of `exFileGood` (indexing on, one
integer attribute, two float attributes) materializes to the 12-column
table `exTblG`; the column names are as laid out, and entry 1 of the
index column is the flat-offset slice of the file. -/
theorem c4_witness :
    loadComponentData 8 exFileGood exHdrG = .ok exTblG ∧
    exTblG.map Prod.fst = colnames exHdrG ∧
    (exTblG.getD 0 ("", [])).2.getD 1 0 =
      leNat ((exFileGood.drop (exHdrG.data_start + 1 * itemsize 8 exHdrG +
        fieldOffset (widths 8 exHdrG) 0)).take ((widths 8 exHdrG).getD 0 0)) := by
  have h := c4_column_layout 8 exFileGood exHdrG exTblG rfl
  exact ⟨rfl, h.1, h.2.2.2.2 0 1 (by decide)⟩

theorem itemsize_eq_recordSize (float_len : Nat) (h : CompHeader)
    (hfl : float_len = 4 ∨ float_len = 8) :
    itemsize float_len h = recordSize float_len h.indexing h.nint_attr h.nfloat_attr := by
  have hts : typeWidth (float_str float_len) = float_len := by
    rcases hfl with rfl | rfl <;> rfl
  unfold itemsize widths dtypeStr recordSize
  rw [List.map_append, List.map_append, List.map_append, List.sum_append,
    List.sum_append, List.sum_append, List.map_replicate, List.map_replicate,
    List.map_replicate, List.sum_replicate, List.sum_replicate, List.sum_replicate,
    hts]
  have tl : typeWidth "l" = 8 := rfl
  have ti : typeWidth "i" = 4 := rfl
  rw [ti]
  by_cases hi : h.indexing = true
  · rw [if_pos hi, if_pos hi]
    simp only [List.map_cons, List.map_nil, tl, List.sum_cons, List.sum_nil,
      smul_eq_mul]
    ring
  · rw [if_neg hi, if_neg hi]
    simp only [List.map_nil, List.sum_nil, smul_eq_mul]
    ring

/-- C5: if a component's `data_end` exceeds the actual file length,
loading that component's data fails with the out-of-range error (the
memmap refuses the extent); the load never silently truncates - a
successful load has the whole extent inside the file and returns
full-length columns. -/
theorem c5_out_of_range (float_len : Nat) (file : List Nat) (h : CompHeader)
    (hfl : float_len = 4 ∨ float_len = 8)
    (hre : h.data_end = h.data_start +
      h.nbodies * recordSize float_len h.indexing h.nint_attr h.nfloat_attr) :
    (file.length < h.data_end → loadComponentData float_len file h = .error .outOfRange) ∧
    (∀ tbl, loadComponentData float_len file h = .ok tbl →
      h.data_end ≤ file.length ∧ ∀ c ∈ tbl, c.2.length = h.nbodies) := by
  have hs : (widths float_len h).sum =
      recordSize float_len h.indexing h.nint_attr h.nfloat_attr :=
    itemsize_eq_recordSize float_len h hfl
  constructor
  · intro hlt
    simp only [loadComponentData]
    rw [hs, if_neg (by omega)]
  · intro tbl ht
    obtain ⟨hc, rfl⟩ := loadComponentData_ok float_len file h tbl ht
    rw [hs] at hc
    refine ⟨by omega, ?_⟩
    intro c hcc
    rw [List.mem_map] at hcc
    obtain ⟨p, -, rfl⟩ := hcc
    simp

set_option maxRecDepth 400000 in
/-- Witness for C5: the header of `exFileShort` declares `data_end` 226
while the file is 84 bytes long, and the data load fails with the
out-of-range error. -/
theorem c5_witness :
    exHdrMm.data_end = exHdrMm.data_start +
      exHdrMm.nbodies * recordSize 8 exHdrMm.indexing exHdrMm.nint_attr exHdrMm.nfloat_attr ∧
    loadComponentHeader 8 exFileShort 16 0 = .ok exHdrMm ∧
    exFileShort.length < exHdrMm.data_end ∧
    loadComponentData 8 exFileShort exHdrMm = .error .outOfRange := by
  have h := c5_out_of_range 8 exFileShort exHdrMm (Or.inr rfl) rfl
  exact ⟨rfl, rfl, by decide, h.1 (by decide)⟩

/-- C1 (amended): the body-count assertion of `_load_data` compares the
facade's accumulated `nbodies` (the sum of every on-disk component's
body count) with the number of rows actually loaded over the name-keyed
header dict - the data load succeeds iff these agree, and fails with
the body-count assertion error when they differ (possible only through
duplicate component names); the master header's `total_bodies` field is
never consulted. -/
theorem c1_body_count_check (file : List Nat) (r : HeadersResult) (t : Tables)
    (hr : loadHeaders file = .ok r)
    (ht : loadDataComps r.float_len file r.comp_header = .ok t) :
    (loadData file r = .ok t ↔
      (t.map (fun p => tableLen p.2)).sum = (r.comps.map CompHeader.nbodies).sum) ∧
    ((t.map (fun p => tableLen p.2)).sum ≠ (r.comps.map CompHeader.nbodies).sum →
      loadData file r = .error .bodyCountMismatch) := by
  obtain ⟨-, -, -, -, -, -, -, -, hsum⟩ := loadHeaders_inv file r hr
  have hld : loadData file r =
      (if r.nbodies = (t.map (fun p => tableLen p.2)).sum then .ok t
        else .error .bodyCountMismatch) := by
    simp only [loadData]
    rw [ht]
  constructor
  · rw [hld]
    constructor
    · intro hok
      split at hok
      · rename_i he
        omega
      · injection hok
    · intro hS
      rw [if_pos (by omega)]
  · intro hne
    rw [hld, if_neg (by omega)]

set_option maxRecDepth 1000000 in
/-- Counterexample to C1 as stated: in `exFileMismatch` the component
body counts sum to 3 while the master header's `total_bodies` (read at
byte offset 8) is 2, yet the whole load pipeline succeeds - no
body-count error is raised, because the assertion in `_load_data` never
consults `total_bodies`. -/
theorem c1_counterexample :
    loadHeaders exFileMismatch = .ok exHdrsMm ∧
    readU32 exFileMismatch 8 = .ok 2 ∧
    exHdrsMm.nbodies_tot = 2 ∧
    (exHdrsMm.comps.map CompHeader.nbodies).sum = 3 ∧
    loadData exFileMismatch exHdrsMm = .ok exTblMm ∧
    isOkE (openAndLoad exFileMismatch) = true :=
  ⟨rfl, rfl, rfl, rfl, rfl, rfl⟩

set_option maxRecDepth 1000000 in
/-- Witness for the amended C1: the two duplicate-name components of
`exFileDup` hold 3 bodies in total, but the deduplicated dict loads only
the second component's 2 rows, so the data load fails with the
body-count assertion error. -/
theorem c1_witness :
    loadDataComps 8 exFileDup exHdrsDup.comp_header = .ok exTblDup ∧
    (exTblDup.map (fun p => tableLen p.2)).sum = 2 ∧
    (exHdrsDup.comps.map CompHeader.nbodies).sum = 3 ∧
    loadData exFileDup exHdrsDup = .error .bodyCountMismatch := by
  have h := c1_body_count_check exFileDup exHdrsDup exTblDup rfl rfl
  exact ⟨rfl, rfl, rfl, h.2 (by decide)⟩

theorem init_not_unit_error (file : List Nat) (pu vu : Option Nat)
    (hc : (pu.isNone && vu.isSome || vu.isNone && pu.isSome) = false) :
    PSPFile.init file pu vu ≠ .error .incompleteUnitSpec := by
  intro hcontra
  unfold PSPFile.init at hcontra
  rw [if_neg (by rw [hc]; exact fun hx => nomatch hx)] at hcontra
  split at hcontra
  · rename_i e he
    injection hcontra with hcontra
    injection hcontra
  · injection hcontra

/-- C6: constructing the facade with exactly one of `pos_unit` and
`vel_unit` set fails with the incomplete-unit-spec error for every file
content whatsoever - the check runs before any file access - while
construction with both set or both unset never produces that error. -/
theorem c6_incomplete_unit_spec (file : List Nat) (pu vu : Option Nat) :
    (((pu = none ∧ vu ≠ none) ∨ (vu = none ∧ pu ≠ none)) →
      PSPFile.init file pu vu = .error .incompleteUnitSpec) ∧
    (((pu = none ∧ vu = none) ∨ (pu ≠ none ∧ vu ≠ none)) →
      PSPFile.init file pu vu ≠ .error .incompleteUnitSpec) := by
  constructor
  · rintro (⟨rfl, hv⟩ | ⟨rfl, hp⟩)
    · cases vu with
      | none => exact absurd rfl hv
      | some v => rfl
    · cases pu with
      | none => exact absurd rfl hp
      | some p => rfl
  · rintro (⟨rfl, rfl⟩ | ⟨hp, hv⟩)
    · exact init_not_unit_error file none none rfl
    · cases pu with
      | none => exact absurd rfl hp
      | some p =>
        cases vu with
        | none => exact absurd rfl hv
        | some v => exact init_not_unit_error file (some p) (some v) rfl

set_option maxRecDepth 100000 in
/-- Witness for C6: over `exFileGood`, giving only a position unit is
rejected with the incomplete-unit-spec error, while giving neither or
both is not. -/
theorem c6_witness :
    PSPFile.init exFileGood (some 1) none = .error .incompleteUnitSpec ∧
    PSPFile.init exFileGood none none ≠ .error .incompleteUnitSpec ∧
    PSPFile.init exFileGood (some 1) (some 2) ≠ .error .incompleteUnitSpec := by
  have h1 := c6_incomplete_unit_spec exFileGood (some 1) none
  have h2 := c6_incomplete_unit_spec exFileGood none none
  have h3 := c6_incomplete_unit_spec exFileGood (some 1) (some 2)
  exact ⟨h1.1 (Or.inr ⟨rfl, by simp⟩), h2.2 (Or.inl ⟨rfl, rfl⟩),
    h3.2 (Or.inr ⟨by simp, by simp⟩)⟩

/-- C7: for every file whose header parsing fails, for any reason,
construction reports the single wrap-up error carrying the underlying
cause (the `IOError` asking whether this is a PSP file at all) instead
of propagating the low-level parse error to the caller. -/
theorem c7_not_a_psp_file (file : List Nat) (pu vu : Option Nat) (e : LoadErr)
    (hu : (pu.isNone && vu.isSome || vu.isNone && pu.isSome) = false)
    (he : loadHeaders file = .error e) :
    PSPFile.init file pu vu = .error (.notAPspFile e) := by
  unfold PSPFile.init
  rw [if_neg (by rw [hu]; exact fun hx => nomatch hx), he]

/-- Witness for C7: the empty file fails header parsing with a short
read, and construction wraps that failure. -/
theorem c7_witness :
    loadHeaders ([] : List Nat) = .error .truncated ∧
    PSPFile.init [] none none = .error (.notAPspFile .truncated) :=
  ⟨rfl, c7_not_a_psp_file [] none none .truncated rfl rfl⟩

theorem getHeaders_cached (file : List Nat) (s : PSPState) (r : HeadersResult)
    (hr : s.comp_headers = some r) : getHeaders file s = .ok (r, s, 0) := by
  unfold getHeaders
  rw [hr]

theorem getData_cached (file : List Nat) (s : PSPState) (d : Tables)
    (hd : s.comp_data = some d) : getData file s = .ok (d, s, 0) := by
  unfold getData
  rw [hd]

theorem getHeaders_preserves (file : List Nat) (s : PSPState) (x : HeadersResult)
    (s2 : PSPState) (k : Nat) (hx : getHeaders file s = .ok (x, s2, k)) :
    s2.comp_headers = some x ∧ s2.comp_data = s.comp_data ∧
    (∀ r0, s.comp_headers = some r0 → s2.comp_headers = some r0) := by
  unfold getHeaders at hx
  split at hx
  · rename_i r hs
    injection hx with hx
    injection hx with h1 hx
    injection hx with h2 h3
    subst h1
    subst h2
    exact ⟨hs, rfl, fun r0 h0 => h0⟩
  · rename_i hs
    split at hx
    · injection hx
    · rename_i r hl
      injection hx with hx
      injection hx with h1 hx
      injection hx with h2 h3
      subst h1
      subst h2
      refine ⟨rfl, rfl, ?_⟩
      intro r0 h0
      rw [hs] at h0
      injection h0

theorem getData_preserves (file : List Nat) (s : PSPState) (x : Tables)
    (s2 : PSPState) (k : Nat) (hx : getData file s = .ok (x, s2, k)) :
    s2.comp_data = some x ∧
    (∀ r0, s.comp_headers = some r0 → s2.comp_headers = some r0) ∧
    (∀ d0, s.comp_data = some d0 → s2.comp_data = some d0) := by
  unfold getData at hx
  split at hx
  · rename_i d hd
    injection hx with hx
    injection hx with h1 hx
    injection hx with h2 h3
    subst h1
    subst h2
    exact ⟨hd, fun r0 h0 => h0, fun d0 h0 => h0⟩
  · rename_i hd
    split at hx
    · injection hx
    · rename_i r s1 k1 hgh
      split at hx
      · injection hx
      · rename_i d hl
        injection hx with hx
        injection hx with h1 hx
        injection hx with h2 h3
        subst h1
        subst h2
        obtain ⟨hh1, hh2, hh3⟩ := getHeaders_preserves file s r s1 k1 hgh
        refine ⟨rfl, ?_, ?_⟩
        · intro r0 h0
          show s1.comp_headers = some r0
          exact hh3 r0 h0
        · intro d0 h0
          rw [hd] at h0
          injection h0

/-- C8: header and data loading are memoized - on a state whose slot is
already loaded, the `headers` and `data` property accesses return the
stored value unchanged, performing zero file reads and leaving the state
untouched - and neither operation ever returns a loaded slot to the
unloaded state. -/
theorem c8_memoization (file : List Nat) (s : PSPState) :
    (∀ r, s.comp_headers = some r → getHeaders file s = .ok (r, s, 0)) ∧
    (∀ d, s.comp_data = some d → getData file s = .ok (d, s, 0)) ∧
    (∀ x s2 k, getHeaders file s = .ok (x, s2, k) →
      s2.comp_headers = some x ∧
      (∀ r0, s.comp_headers = some r0 → s2.comp_headers = some r0) ∧
      (∀ d0, s.comp_data = some d0 → s2.comp_data = some d0)) ∧
    (∀ x s2 k, getData file s = .ok (x, s2, k) →
      s2.comp_data = some x ∧
      (∀ r0, s.comp_headers = some r0 → s2.comp_headers = some r0) ∧
      (∀ d0, s.comp_data = some d0 → s2.comp_data = some d0)) := by
  refine ⟨fun r hr => getHeaders_cached file s r hr,
    fun d hd => getData_cached file s d hd, ?_, ?_⟩
  · intro x s2 k hx
    obtain ⟨h1, h2, h3⟩ := getHeaders_preserves file s x s2 k hx
    refine ⟨h1, h3, ?_⟩
    intro d0 h0
    rw [h2, h0]
  · intro x s2 k hx
    exact getData_preserves file s x s2 k hx

set_option maxRecDepth 1000000 in
/-- Witness for C8: the pipeline over `exFileMismatch` ends in
`exState`, and on that state both property accesses return the stored
values with zero reads and an unchanged state. -/
theorem c8_witness :
    openAndLoad exFileMismatch = .ok (exState, exHdrsMm, exTblMm) ∧
    getHeaders exFileMismatch exState = .ok (exHdrsMm, exState, 0) ∧
    getData exFileMismatch exState = .ok (exTblMm, exState, 0) := by
  have h := c8_memoization exFileMismatch exState
  exact ⟨rfl, h.1 exHdrsMm rfl, h.2.1 exTblMm rfl⟩

end Pspio
